import Mathlib

/-!
Remote storage-policy adapter (`pkg/filesystem/remote/handler.go`)

A shallow embedding of the remote `Handler` and of the library routines its
results depend on, followed by the properties proved about it.

* Go strings are byte sequences, so a string is a list of bytes.
* A Go call that can stop with a run-time panic (a nil pointer dereference)
  yields an `Outcome`.
* The HTTP client, the signer, the JSON codec, the settings lookup and the
  upload-policy encoder are collaborators of the handler: they are fields of
  records that the operations receive.
-/

namespace Remote

/-! ## Go strings -/

/-- One byte of a Go string. -/
abbrev Byte := Fin 256

/-- A Go `string` (equally a `[]byte`): an arbitrary sequence of bytes. -/
abbrev GoString := List Byte

/-- The byte of an ASCII character literal. -/
def ch (c : Char) : Byte := Fin.ofNat c.toNat

/-- The bytes of a string literal of the source (UTF-8, as Go stores it). -/
def goStr (s : String) : GoString :=
  s.data.flatMap (fun c => (String.utf8EncodeChar c).map (fun b => Fin.ofNat b.toNat))

/-- The test `strings.HasPrefix(s, p)`. -/
def startsWith (s p : GoString) : Bool := p.isPrefixOf s

/-- The test `strings.HasSuffix(s, p)`. -/
def endsWith (s p : GoString) : Bool := p.isSuffixOf s

/-- The pieces of `strings.Split(s, sep)` for a one-byte separator, given the
piece `cur` read so far. -/
def splitAux (sep : Byte) : GoString → GoString → List GoString
  | [], cur => [cur]
  | c :: rest, cur =>
    if c = sep then cur :: splitAux sep rest [] else splitAux sep rest (cur ++ [c])

/-- The slice `strings.Split(s, sep)` for a one-byte separator. -/
def stringsSplit (s : GoString) (sep : Byte) : List GoString := splitAux sep s []

/-- The string `strings.Join(parts, sep)` for a one-byte separator. -/
def stringsJoin (parts : List GoString) (sep : Byte) : GoString :=
  List.intercalate [sep] parts

/-! ## Errors and panics -/

/-- A Go `error` value: made by `errors.New`, by `serializer.NewError`, or
handed back by a collaborator. -/
inductive GoError where
  | new (msg : GoString)
  | app (code : Int) (msg : GoString) (raw : GoError)
  | external (msg : GoString)
  deriving DecidableEq, Repr

/-- The error `errors.New(msg)`. -/
def errorsNew (msg : GoString) : GoError := GoError.new msg

/-- The text `err.Error()` of an error made by `errors.New` or a collaborator;
an application error reports its own message. -/
def GoError.message : GoError → GoString
  | GoError.new msg => msg
  | GoError.app _ msg _ => msg
  | GoError.external msg => msg

deriving instance DecidableEq for Except

/-- How a call ends: it returns a value, or it stops with a run-time panic. -/
inductive Outcome (α : Type) where
  | returned (value : α)
  | panicked
  deriving DecidableEq, Repr

/-! ## `encoding/base64`: `RawURLEncoding` -/

/-- The URL-safe alphabet `encodeURL` of `encoding/base64`. -/
def encodeURL : GoString :=
  goStr "ABCDEFGHIJKLMNOPQRSTUVWXYZabcdefghijklmnopqrstuvwxyz0123456789-_"

/-- The entry `enc.encode[i]` of the alphabet. -/
def encodeAt (i : Nat) : Byte := encodeURL.getD i 0

/-- The entry `enc.decodeMap[c]`: the position of `c` in the alphabet, and
`0xFF` for a byte outside it. -/
def decodeMap (c : Byte) : Nat :=
  if encodeURL.indexOf c < 64 then encodeURL.indexOf c else 255

/-- The function `base64.RawURLEncoding.EncodeToString`: every three bytes
become four characters, a final block of one or two bytes becomes two or three
characters, and no padding is written. -/
def rawURLEncode : List Byte → GoString
  | [] => []
  | [a] =>
    let val := a.val * 65536
    [encodeAt (val / 262144 % 64), encodeAt (val / 4096 % 64)]
  | [a, b] =>
    let val := a.val * 65536 + b.val * 256
    [encodeAt (val / 262144 % 64), encodeAt (val / 4096 % 64), encodeAt (val / 64 % 64)]
  | a :: b :: c :: rest =>
    let val := a.val * 65536 + b.val * 256 + c.val
    encodeAt (val / 262144 % 64) :: encodeAt (val / 4096 % 64) ::
      encodeAt (val / 64 % 64) :: encodeAt (val % 64) :: rawURLEncode rest

/-- The quanta of the decoder, on the six-bit values of the characters: four
values give three bytes, a final group of three gives two bytes, of two gives
one byte; a single left-over value, or a value `0xFF`, is corrupt input. -/
def decodeQuanta : List Nat → Option (List Byte)
  | [] => some []
  | [_] => none
  | [p, q] =>
    if p < 64 ∧ q < 64 then
      let val := p * 262144 + q * 4096
      some [Fin.ofNat (val / 65536 % 256)]
    else none
  | [p, q, r] =>
    if p < 64 ∧ q < 64 ∧ r < 64 then
      let val := p * 262144 + q * 4096 + r * 64
      some [Fin.ofNat (val / 65536 % 256), Fin.ofNat (val / 256 % 256)]
    else none
  | p :: q :: r :: s :: rest =>
    if p < 64 ∧ q < 64 ∧ r < 64 ∧ s < 64 then
      let val := p * 262144 + q * 4096 + r * 64 + s
      match decodeQuanta rest with
      | some tail =>
        some (Fin.ofNat (val / 65536 % 256) :: Fin.ofNat (val / 256 % 256) ::
          Fin.ofNat (val % 256) :: tail)
      | none => none
    else none

/-- The function `base64.RawURLEncoding.DecodeString`: carriage returns and
line feeds are skipped, every other byte must belong to the alphabet. -/
def rawURLDecode (s : GoString) : Option (List Byte) :=
  decodeQuanta ((s.filter (fun c => c != ch '\n' && c != ch '\r')).map decodeMap)

/-- The characters a token may hold: `A-Z`, `a-z`, `0-9`, `-` and `_`. -/
def isTokenByte (c : Byte) : Bool :=
  (ch 'A' ≤ c && c ≤ ch 'Z') || (ch 'a' ≤ c && c ≤ ch 'z') ||
    (ch '0' ≤ c && c ≤ ch '9') || c == ch '-' || c == ch '_'

/-! ## `fmt`: the verb `%d` -/

/-- The decimal digits of `n`, most significant first; `fuel` bounds the number
of digits. -/
def decimalDigits : Nat → Nat → GoString
  | 0, _ => []
  | fuel + 1, n =>
    if n < 10 then [Fin.ofNat (48 + n)]
    else decimalDigits fuel (n / 10) ++ [Fin.ofNat (48 + n % 10)]

/-- The text `fmt.Sprintf("%d", i)`: decimal, with a leading `-` when negative. -/
def formatInt (i : Int) : GoString :=
  if i < 0 then ch '-' :: decimalDigits (i.natAbs + 1) i.natAbs
  else decimalDigits (i.natAbs + 1) i.natAbs

/-! ## `net/url`

The URL library as of the Go release the repository was written for (1.13).
The authority parser `parseAuthority` is a parameter: the references built
by the handler are absolute paths, which carry no authority. -/

/-- The escaping modes of `net/url`. -/
inductive Encoding where
  | encodePath
  | encodePathSegment
  | encodeHost
  | encodeZone
  | encodeUserPassword
  | encodeQueryComponent
  | encodeFragment
  deriving DecidableEq, Repr

/-- The errors of `net/url` (their text is never read by the handler). -/
inductive UrlError where
  | invalidControlCharacter
  | missingProtocolScheme
  | firstPathSegmentColon
  | escapeError (s : GoString)
  | invalidHostError (s : GoString)
  | authorityError
  deriving DecidableEq, Repr

/-- The type `url.Userinfo`. -/
structure Userinfo where
  username : GoString := []
  password : GoString := []
  passwordSet : Bool := false
  deriving DecidableEq, Repr

/-- The type `url.URL`; a pointer that may be nil is an `Option URL`. -/
structure URL where
  Scheme : GoString := []
  Opaque : GoString := []
  User : Option Userinfo := none
  Host : GoString := []
  Path : GoString := []
  RawPath : GoString := []
  ForceQuery : Bool := false
  RawQuery : GoString := []
  Fragment : GoString := []
  deriving DecidableEq, Repr

/-- The type of `parseAuthority`: the user and the host of an authority. -/
abbrev AuthorityParser := GoString → Except UrlError (Option Userinfo × GoString)

/-- The index `strings.IndexByte(s, c)`, `-1` when `c` does not occur. -/
def indexByte (s : GoString) (c : Byte) : Int :=
  if c ∈ s then (s.indexOf c : Int) else -1

/-- The index `strings.LastIndex(s, c)` for one byte, `-1` when absent. -/
def lastIndexByte (s : GoString) (c : Byte) : Int :=
  if c ∈ s then ((s.length - 1 - s.reverse.indexOf c : Nat) : Int) else -1

/-- The helper `split(s, c, cutc)`: `s` cut at the first `c`, which is left
out of the second part when `cutc` holds; `(s, "")` when `c` does not occur. -/
def split (s : GoString) (c : Byte) (cutc : Bool) : GoString × GoString :=
  match s.dropWhile (fun x => x != c) with
  | [] => (s, [])
  | x :: rest => (s.takeWhile (fun x => x != c), if cutc then rest else x :: rest)

/-- The test `'a' <= c <= 'z' || 'A' <= c <= 'Z'`. -/
def isLetter (c : Byte) : Bool :=
  (ch 'a' ≤ c && c ≤ ch 'z') || (ch 'A' ≤ c && c ≤ ch 'Z')

/-- The test `'0' <= c <= '9'`. -/
def isDigit (c : Byte) : Bool := ch '0' ≤ c && c ≤ ch '9'

/-- The test `ishex`. -/
def ishex (c : Byte) : Bool :=
  (ch '0' ≤ c && c ≤ ch '9') || (ch 'a' ≤ c && c ≤ ch 'f') || (ch 'A' ≤ c && c ≤ ch 'F')

/-- The value `unhex(c)` of a hexadecimal digit. -/
def unhex (c : Byte) : Nat :=
  if ch '0' ≤ c ∧ c ≤ ch '9' then c.val - 48
  else if ch 'a' ≤ c ∧ c ≤ ch 'f' then c.val - 97 + 10
  else if ch 'A' ≤ c ∧ c ≤ ch 'F' then c.val - 65 + 10
  else 0

/-- The function `shouldEscape(c, mode)`. -/
def shouldEscape (c : Byte) (mode : Encoding) : Bool :=
  if isLetter c || isDigit c then false
  else if (mode = Encoding.encodeHost ∨ mode = Encoding.encodeZone) ∧
      c ∈ goStr "!$&\x27()*+,;=:[]<>\"" then false
  else if c ∈ goStr "-_.~" then false
  else if c ∈ goStr "$&+,/:;=?@" ∧ mode = Encoding.encodePath then c == ch '?'
  else if c ∈ goStr "$&+,/:;=?@" ∧ mode = Encoding.encodePathSegment then
    c == ch '/' || c == ch ';' || c == ch ',' || c == ch '?'
  else if c ∈ goStr "$&+,/:;=?@" ∧ mode = Encoding.encodeUserPassword then
    c == ch '@' || c == ch '/' || c == ch '?' || c == ch ':'
  else if c ∈ goStr "$&+,/:;=?@" ∧ mode = Encoding.encodeQueryComponent then true
  else if c ∈ goStr "$&+,/:;=?@" ∧ mode = Encoding.encodeFragment then false
  else if mode = Encoding.encodeFragment ∧ c ∈ goStr "!()*" then false
  else true

/-- The first loop of `unescape`: every `%` is followed by two hexadecimal
digits, and a host holds no byte that would have to be escaped. -/
def unescapeCheck (mode : Encoding) : GoString → Except UrlError Unit
  | [] => Except.ok ()
  | c :: rest =>
    if c = ch '%' then
      match rest with
      | h1 :: h2 :: rest2 =>
        if ishex h1 && ishex h2 then
          if mode = Encoding.encodeHost ∧ unhex h1 < 8 ∧ [c, h1, h2] ≠ goStr "%25" then
            Except.error (UrlError.escapeError [c, h1, h2])
          else if mode = Encoding.encodeZone ∧ [c, h1, h2] ≠ goStr "%25" ∧
              unhex h1 * 16 + unhex h2 ≠ 32 ∧
              shouldEscape (Fin.ofNat (unhex h1 * 16 + unhex h2)) Encoding.encodeHost then
            Except.error (UrlError.escapeError [c, h1, h2])
          else unescapeCheck mode rest2
        else Except.error (UrlError.escapeError (List.take 3 (c :: rest)))
      | _ => Except.error (UrlError.escapeError (List.take 3 (c :: rest)))
    else if c = ch '+' then unescapeCheck mode rest
    else if (mode = Encoding.encodeHost ∨ mode = Encoding.encodeZone) ∧ c.val < 128 ∧
        shouldEscape c Encoding.encodeHost then
      Except.error (UrlError.invalidHostError [c])
    else unescapeCheck mode rest

/-- The second loop of `unescape`: `%XX` becomes the byte `XX`, and `+` a space
in a query component. -/
def unescapeBytes (mode : Encoding) : GoString → GoString
  | [] => []
  | c :: rest =>
    if c = ch '%' then
      match rest with
      | h1 :: h2 :: rest2 => Fin.ofNat (unhex h1 * 16 + unhex h2) :: unescapeBytes mode rest2
      | _ => []
    else if c = ch '+' then
      (if mode = Encoding.encodeQueryComponent then ch ' ' else ch '+') :: unescapeBytes mode rest
    else c :: unescapeBytes mode rest

/-- The function `unescape(s, mode)`; a string with no `%` (and, in a query
component, no `+`) is returned as it is. -/
def unescape (s : GoString) (mode : Encoding) : Except UrlError GoString :=
  match unescapeCheck mode s with
  | Except.error e => Except.error e
  | Except.ok _ =>
    if s.count (ch '%') = 0 ∧ ¬ (mode = Encoding.encodeQueryComponent ∧ ch '+' ∈ s) then
      Except.ok s
    else Except.ok (unescapeBytes mode s)

/-- The digit `"0123456789ABCDEF"[i]`. -/
def upperhex (i : Nat) : Byte := (goStr "0123456789ABCDEF").getD i 0

/-- The function `escape(s, mode)`; a string in which nothing has to be
escaped is returned as it is. -/
def escape (s : GoString) (mode : Encoding) : GoString :=
  if s.all (fun c => !shouldEscape c mode) then s
  else s.flatMap (fun c =>
    if c = ch ' ' ∧ mode = Encoding.encodeQueryComponent then [ch '+']
    else if shouldEscape c mode then [ch '%', upperhex (c.val / 16), upperhex (c.val % 16)]
    else [c])

/-- The function `validEncodedPath(s)`. -/
def validEncodedPath (s : GoString) : Bool :=
  s.all (fun c =>
    if c ∈ goStr "!$&\x27()*+,;=:@" then true
    else if c ∈ goStr "[]" then true
    else if c = ch '%' then true
    else !shouldEscape c Encoding.encodePath)

/-- The method `(*URL).setPath(p)`. -/
def URL.setPath (u : URL) (p : GoString) : Except UrlError URL :=
  match unescape p Encoding.encodePath with
  | Except.error e => Except.error e
  | Except.ok path =>
    Except.ok { u with
      Path := path
      RawPath := if p = escape path Encoding.encodePath then [] else p }

/-- The method `(*URL).EscapedPath()`. -/
def URL.EscapedPath (u : URL) : GoString :=
  if u.RawPath ≠ [] ∧ validEncodedPath u.RawPath ∧
      unescape u.RawPath Encoding.encodePath = Except.ok u.Path then u.RawPath
  else if u.Path = goStr "*" then goStr "*"
  else escape u.Path Encoding.encodePath

/-- The loop of `getscheme` at index `i`, `rest` being `rawurl[i:]`. -/
def getschemeAux (rawurl : GoString) : Nat → GoString → Except UrlError (GoString × GoString)
  | _, [] => Except.ok ([], rawurl)
  | i, c :: rest =>
    if isLetter c then getschemeAux rawurl (i + 1) rest
    else if isDigit c || c == ch '+' || c == ch '-' || c == ch '.' then
      if i = 0 then Except.ok ([], rawurl) else getschemeAux rawurl (i + 1) rest
    else if c = ch ':' then
      if i = 0 then Except.error UrlError.missingProtocolScheme
      else Except.ok (rawurl.take i, rest)
    else Except.ok ([], rawurl)

/-- The function `getscheme(rawurl)`: the scheme and what follows its colon. -/
def getscheme (rawurl : GoString) : Except UrlError (GoString × GoString) :=
  getschemeAux rawurl 0 rawurl

/-- The function `strings.ToLower` on a scheme (ASCII letters, digits, `+-.`). -/
def toLower (s : GoString) : GoString :=
  s.map (fun c => if ch 'A' ≤ c ∧ c ≤ ch 'Z' then Fin.ofNat (c.val + 32) else c)

/-- The test `stringContainsCTLByte(s)`. -/
def stringContainsCTLByte (s : GoString) : Bool :=
  s.any (fun b => b < ch ' ' || b == 127)

/-- The end of `parse`: the authority after `//`, then the path. -/
def parseAuthorityAndPath (parseAuthority : AuthorityParser) (url : URL) (rest : GoString) :
    Except UrlError URL :=
  if (url.Scheme ≠ [] ∨ ¬ startsWith rest (goStr "///")) ∧ startsWith rest (goStr "//") then
    match parseAuthority (split (rest.drop 2) (ch '/') false).1 with
    | Except.error e => Except.error e
    | Except.ok (user, host) =>
      URL.setPath { url with User := user, Host := host } (split (rest.drop 2) (ch '/') false).2
  else URL.setPath url rest

/-- The function `parse(rawurl, false)`: a URL without its fragment. -/
def parse (parseAuthority : AuthorityParser) (rawurl : GoString) : Except UrlError URL :=
  if stringContainsCTLByte rawurl then Except.error UrlError.invalidControlCharacter
  else if rawurl = goStr "*" then Except.ok { Path := goStr "*" }
  else
    match getscheme rawurl with
    | Except.error e => Except.error e
    | Except.ok (scheme, rest0) =>
      let forced : Bool := endsWith rest0 (goStr "?") && rest0.count (ch '?') == 1
      let rest : GoString := if forced then rest0.dropLast else (split rest0 (ch '?') true).1
      let url : URL :=
        { Scheme := toLower scheme
          ForceQuery := forced
          RawQuery := if forced then [] else (split rest0 (ch '?') true).2 }
      if !startsWith rest (goStr "/") then
        if url.Scheme ≠ [] then Except.ok { url with Opaque := rest }
        else if indexByte rest (ch ':') ≥ 0 ∧
            (indexByte rest (ch '/') < 0 ∨ indexByte rest (ch ':') < indexByte rest (ch '/')) then
          Except.error UrlError.firstPathSegmentColon
        else parseAuthorityAndPath parseAuthority url rest
      else parseAuthorityAndPath parseAuthority url rest

/-- The function `url.Parse(rawurl)`. -/
def Parse (parseAuthority : AuthorityParser) (rawurl : GoString) : Except UrlError URL :=
  match parse parseAuthority (split rawurl (ch '#') true).1 with
  | Except.error e => Except.error e
  | Except.ok url =>
    if (split rawurl (ch '#') true).2 = [] then Except.ok url
    else
      match unescape (split rawurl (ch '#') true).2 Encoding.encodeFragment with
      | Except.error e => Except.error e
      | Except.ok frag => Except.ok { url with Fragment := frag }

/-- The loop of `resolvePath` over the elements of the path: `.` is dropped,
`..` removes the last element kept so far, anything else is kept. -/
def resolveElems : List GoString → List GoString → List GoString
  | dst, [] => dst
  | dst, elem :: src =>
    if elem = goStr "." then resolveElems dst src
    else if elem = goStr ".." then resolveElems dst.dropLast src
    else resolveElems (dst ++ [elem]) src

/-- The function `resolvePath(base, ref)`. -/
def resolvePath (base ref : GoString) : GoString :=
  let full : GoString :=
    match ref with
    | [] => base
    | c :: _ =>
      if c ≠ ch '/' then base.take (lastIndexByte base (ch '/') + 1).toNat ++ ref else ref
  if full = [] then []
  else
    let src := stringsSplit full (ch '/')
    let dst := resolveElems [] src
    let dst := if src.getLast? = some (goStr ".") ∨ src.getLast? = some (goStr "..")
      then dst ++ [[]] else dst
    let joined := stringsJoin dst (ch '/')
    ch '/' :: (if startsWith joined (goStr "/") then joined.drop 1 else joined)

/-- The method `(*URL).setPath` with its error ignored, as `ResolveReference`
calls it. -/
def URL.setPathIgnoringError (u : URL) (p : GoString) : URL :=
  match u.setPath p with
  | Except.ok v => v
  | Except.error _ => u

/-- The method `(*URL).ResolveReference(ref)` for a reference that is not nil. -/
def URL.resolveReference (u ref : URL) : URL :=
  let url : URL := if ref.Scheme = [] then { ref with Scheme := u.Scheme } else ref
  if ref.Scheme ≠ [] ∨ ref.Host ≠ [] ∨ ref.User ≠ none then
    url.setPathIgnoringError (resolvePath ref.EscapedPath [])
  else if ref.Opaque ≠ [] then
    { url with User := none, Host := [], Path := [] }
  else
    let url : URL :=
      if ref.Path = [] ∧ ref.RawQuery = [] then
        { url with
          RawQuery := u.RawQuery
          Fragment := if ref.Fragment = [] then u.Fragment else url.Fragment }
      else url
    URL.setPathIgnoringError { url with Host := u.Host, User := u.User }
      (resolvePath u.EscapedPath ref.EscapedPath)

/-- The method `(*URL).ResolveReference(ref)`: it starts by copying `*ref`, a
nil pointer dereference when `ref` is nil. -/
def URL.ResolveReference (u : URL) (ref : Option URL) : Outcome URL :=
  match ref with
  | none => Outcome.panicked
  | some r => Outcome.returned (u.resolveReference r)

/-- The method `(*Userinfo).String()`. -/
def Userinfo.String (u : Userinfo) : GoString :=
  escape u.username Encoding.encodeUserPassword ++
    (if u.passwordSet then ch ':' :: escape u.password Encoding.encodeUserPassword else [])

/-- The part of `(*URL).String()` before the path of a URL that is not opaque:
scheme, `//`, user and host. -/
def URL.stringAuthority (u : URL) : GoString :=
  (if u.Scheme ≠ [] then u.Scheme ++ [ch ':'] else []) ++
    (if u.Scheme ≠ [] ∨ u.Host ≠ [] ∨ u.User ≠ none then
      (if u.Host ≠ [] ∨ u.Path ≠ [] ∨ u.User ≠ none then goStr "//" else []) ++
        (match u.User with
          | some ui => ui.String ++ [ch '@']
          | none => []) ++
        (if u.Host ≠ [] then escape u.Host Encoding.encodeHost else [])
    else [])

/-- The part of `(*URL).String()` after the path: query and fragment. -/
def URL.stringTail (u : URL) : GoString :=
  (if u.ForceQuery ∨ u.RawQuery ≠ [] then ch '?' :: u.RawQuery else []) ++
    (if u.Fragment ≠ [] then ch '#' :: escape u.Fragment Encoding.encodeFragment else [])

/-- The method `(*URL).String()`. -/
def URL.String (u : URL) : GoString :=
  if u.Opaque ≠ [] then
    (if u.Scheme ≠ [] then u.Scheme ++ [ch ':'] else []) ++ u.Opaque ++ u.stringTail
  else
    let buf := u.stringAuthority
    let path := u.EscapedPath
    let buf := if path ≠ [] ∧ path.head? ≠ some (ch '/') ∧ u.Host ≠ [] then buf ++ [ch '/'] else buf
    let buf :=
      if buf = [] ∧ indexByte path (ch ':') > -1 ∧
          indexByte (path.take (indexByte path (ch ':')).toNat) (ch '/') = -1 then
        buf ++ goStr "./"
      else buf
    buf ++ path ++ u.stringTail

/-! ## Types of the repository used by the handler -/

/-- Modelled from the spec: the storage policy `model.Policy`, whose declaration
is outside the handler's file: server base address, directory-naming rule,
file-naming rule, auto-rename flag, max upload size, allowed extensions. -/
structure Policy where
  Server : GoString
  DirNameRule : GoString
  FileNameRule : GoString
  AutoRename : Bool
  MaxSize : Nat
  FileType : List GoString

/-- Modelled from the spec: the upload policy `serializer.UploadPolicy`, whose
declaration is outside the handler's file: naming rules, size and extension
constraints, callback address. -/
structure UploadPolicy where
  SavePath : GoString
  FileName : GoString
  AutoRename : Bool
  MaxSize : Nat
  AllowedExtension : List GoString
  CallbackURL : GoString
  deriving DecidableEq, Repr

/-- Modelled from the spec: the credential `serializer.UploadCredential`, whose
declaration is outside the handler's file: a pair of bearer token and encoded
policy payload. `UploadCredential{}` is the pair of two empty strings. -/
structure UploadCredential where
  Token : GoString := []
  Policy : GoString := []
  deriving DecidableEq, Repr

/-- Modelled from the spec: the body `serializer.RemoteDeleteRequest` of a
delete request, `{files: [id...]}`, whose declaration is outside the handler's
file. It is also the shape of the list of undeleted files in a response. -/
structure RemoteDeleteRequest where
  Files : List GoString
  deriving DecidableEq, Repr

/-- The dynamic type of a value decoded from JSON into an `interface{}`. Only
the case of a `string` carries its value: the handler reads no other. -/
inductive DataValue where
  | null
  | bool
  | number
  | string (s : GoString)
  | array
  | object
  deriving DecidableEq, Repr

/-- Modelled from the spec: the response envelope `serializer.Response`,
`{code: int, data: any, error: string}`, whose declaration is outside the
handler's file. -/
structure Response where
  Code : Int
  Data : DataValue
  Error : GoString
  deriving DecidableEq, Repr

/-- Modelled from the spec: the redirect instruction
`response.ContentResponse`, whose declaration is outside the handler's file. -/
structure ContentResponse where
  Redirect : Bool
  URL : GoString
  deriving DecidableEq, Repr

/-- The file record `model.File` as far as the handler reads it. -/
structure File where
  Name : GoString
  deriving DecidableEq, Repr

/-- The ambient `context.Context` as far as the handler reads it: the value
stored under `fsctx.FileModelCtx`, when it is a `model.File`. -/
structure Context where
  FileModel : Option File
  deriving DecidableEq, Repr

/-- The header of a request, a `map[string][]string`. -/
abbrev Header := GoString → Option (List GoString)

/-- The type `http.Request` as far as the handler and the signer share it. -/
structure HTTPRequest where
  Method : GoString
  URL : URL
  Header : Header

/-- One call of `Client.Request`: method, target, body, and the life time given
to `request.WithCredential`. -/
structure HTTPCall where
  Method : GoString
  Target : GoString
  Body : GoString
  CredentialTTL : Int
  deriving DecidableEq, Repr

/-- The interface `request.Client`: what
`Request(...).CheckHTTPResponse(200).GetResponse()` gives for a call. -/
structure Client where
  Request : HTTPCall → Except GoError GoString

/-- The interface `auth.Auth` with the two package functions that sign with
it: `auth.SignURI(instance, uri, ttl)` and `auth.SignRequest(instance, r, ttl)`. -/
structure Auth where
  SignURI : GoString → Int → Except GoError URL
  SignRequest : HTTPRequest → Int → HTTPRequest

/-- The type `Handler`. -/
structure Handler where
  Client : Client
  Policy : Policy
  AuthInstance : Auth

/-- The package-level collaborators of the handler: the JSON codec for the two
shapes it exchanges, the settings lookup, the site address, the upload-policy
encoder, and the authority parser of the URL library. -/
structure Env where
  jsonMarshal : RemoteDeleteRequest → Except GoError GoString
  jsonUnmarshalResponse : GoString → Except GoError Response
  jsonUnmarshalDeleteRequest : GoString → Except GoError RemoteDeleteRequest
  GetIntSetting : GoString → Int → Int
  GetSiteURL : URL
  EncodeUploadPolicy : UploadPolicy → Except GoError GoString
  CodeEncryptError : Int
  parseAuthority : AuthorityParser

/-- What an operation hands back, with the calls it made on the client. -/
structure Effect (α : Type) where
  ret : α
  sent : List HTTPCall
  deriving DecidableEq, Repr

/-- A nil pointer for a call that failed, as in `controller, _ = url.Parse(..)`. -/
def pointerOf {ε α : Type} (r : Except ε α) : Option α :=
  match r with
  | Except.ok v => some v
  | Except.error _ => none

/-! ## The handler -/

/-- The sub-path that the `switch` of `getAPIUrl` assigns to `controller`;
nil when no case matches. -/
def getAPIUrlController (env : Env) (scope : GoString) : Option URL :=
  if scope = goStr "delete" then
    pointerOf (Parse env.parseAuthority (goStr "/api/v3/slave/delete"))
  else if scope = goStr "thumb" then
    pointerOf (Parse env.parseAuthority (goStr "/api/v3/slave/thumb"))
  else none

/-- The method `Handler.getAPIUrl`. -/
def getAPIUrl (env : Env) (handler : Handler) (scope : GoString) : Outcome GoString :=
  match Parse env.parseAuthority handler.Policy.Server with
  | Except.error _ => Outcome.returned []
  | Except.ok serverURL =>
    match serverURL.ResolveReference (getAPIUrlController env scope) with
    | Outcome.panicked => Outcome.panicked
    | Outcome.returned u => Outcome.returned u.String

/-- The method `Handler.Put`. -/
def Put (_handler : Handler) (_ctx : Context) (_file : GoString) (_dst : GoString)
    (_size : Nat) : Effect (Option GoError) :=
  { ret := some (errorsNew (goStr "远程策略不支持此上传方式")), sent := [] }

/-- The end of `Handler.Delete`: reading the decoded response. -/
def deleteResult (env : Env) (files : List GoString) (reqResp : Response) :
    List GoString × Option GoError :=
  if reqResp.Code ≠ 0 then
    match reqResp.Data with
    | DataValue.string failed =>
      match env.jsonUnmarshalDeleteRequest failed with
      | Except.ok failedResp => (failedResp.Files, some (errorsNew reqResp.Error))
      | Except.error _ => (files, some (errorsNew (goStr "未知的返回结果格式")))
    | _ => (files, some (errorsNew (goStr "未知的返回结果格式")))
  else ([], none)

/-- The method `Handler.Delete`: the undeleted files and the error, with the
calls made on the client. -/
def Delete (env : Env) (handler : Handler) (_ctx : Context) (files : List GoString) :
    Outcome (Effect (List GoString × Option GoError)) :=
  match env.jsonMarshal { Files := files } with
  | Except.error err => Outcome.returned { ret := (files, some err), sent := [] }
  | Except.ok reqBodyEncoded =>
    let signTTL := env.GetIntSetting (goStr "slave_api_timeout") 60
    match getAPIUrl env handler (goStr "delete") with
    | Outcome.panicked => Outcome.panicked
    | Outcome.returned target =>
      let call : HTTPCall :=
        { Method := goStr "POST", Target := target, Body := reqBodyEncoded,
          CredentialTTL := signTTL }
      match handler.Client.Request call with
      | Except.error err => Outcome.returned { ret := (files, some err), sent := [call] }
      | Except.ok resp =>
        match env.jsonUnmarshalResponse resp with
        | Except.error err => Outcome.returned { ret := (files, some err), sent := [call] }
        | Except.ok reqResp =>
          Outcome.returned { ret := deleteResult env files reqResp, sent := [call] }

/-- The method `Handler.Thumb`. -/
def Thumb (env : Env) (handler : Handler) (_ctx : Context) (path : GoString) :
    Outcome (Option ContentResponse × Option GoError) :=
  let sourcePath := rawURLEncode path
  match getAPIUrl env handler (goStr "thumb") with
  | Outcome.panicked => Outcome.panicked
  | Outcome.returned base =>
    let thumbURL := base ++ goStr "/" ++ sourcePath
    let ttl := env.GetIntSetting (goStr "slave_api_timeout") 60
    match handler.AuthInstance.SignURI thumbURL ttl with
    | Except.error err => Outcome.returned (none, some err)
    | Except.ok signedThumbURL =>
      Outcome.returned (some { Redirect := true, URL := signedThumbURL.String }, none)

/-- The file name `Source` puts in the address: the name of the file in the
context, `"file"` when the context carries none. -/
def sourceFileName (ctx : Context) : GoString :=
  match ctx.FileModel with
  | some file => file.Name
  | none => goStr "file"

/-- The controller `Source` chooses. -/
def sourceController (isDownload : Bool) : GoString :=
  if !isDownload then goStr "/api/v3/slave/source" else goStr "/api/v3/slave/download"

/-- The text `fmt.Sprintf("%s/%d/%s/%s", controller, speed, sourcePath, fileName)`
that `Source` hands to `auth.SignURI`. -/
def sourceURI (ctx : Context) (path : GoString) (isDownload : Bool) (speed : Int) : GoString :=
  sourceController isDownload ++ goStr "/" ++ formatInt speed ++ goStr "/" ++
    rawURLEncode path ++ goStr "/" ++ sourceFileName ctx

/-- The method `Handler.Source`. -/
def Source (env : Env) (handler : Handler) (ctx : Context) (path : GoString) (_baseURL : URL)
    (ttl : Int) (isDownload : Bool) (speed : Int) : GoString × Option GoError :=
  match Parse env.parseAuthority handler.Policy.Server with
  | Except.error _ => ([], some (errorsNew (goStr "无法解析远程服务端地址")))
  | Except.ok serverURL =>
    match handler.AuthInstance.SignURI (sourceURI ctx path isDownload speed) ttl with
    | Except.error err =>
      ([], some (GoError.app env.CodeEncryptError (goStr "无法对URL进行签名") err))
    | Except.ok signedURI => ((serverURL.resolveReference signedURI).String, none)

/-- The text that `Token` puts before the key in the callback reference. -/
def callbackPrefix : GoString := goStr "/api/v3/callback/remote/"

/-- The reference `url.Parse("/api/v3/callback/remote/" + key)` of `Token`,
nil when the text does not parse. -/
def callbackReference (env : Env) (key : GoString) : Option URL :=
  pointerOf (Parse env.parseAuthority (callbackPrefix ++ key))

/-- The upload policy `Token` builds around a callback address. -/
def uploadPolicy (handler : Handler) (apiURL : URL) : UploadPolicy :=
  { SavePath := handler.Policy.DirNameRule
    FileName := handler.Policy.FileNameRule
    AutoRename := handler.Policy.AutoRename
    MaxSize := handler.Policy.MaxSize
    AllowedExtension := handler.Policy.FileType
    CallbackURL := apiURL.String }

/-- The request `http.NewRequest("POST", "/api/v3/slave/upload", nil)` with its
header replaced by `{"X-Policy": {policyEncoded}}`; nil when the address does
not parse. -/
def uploadRequest (env : Env) (policyEncoded : GoString) : Option HTTPRequest :=
  match Parse env.parseAuthority (goStr "/api/v3/slave/upload") with
  | Except.error _ => none
  | Except.ok u =>
    some
      { Method := goStr "POST"
        URL := u
        Header := fun k => if k = goStr "X-Policy" then some [policyEncoded] else none }

/-- The request of `Token` once `http.NewRequest` has parsed its address:
`POST /api/v3/slave/upload` with the header `{"X-Policy": {policyEncoded}}`. -/
def syntheticRequest (policyEncoded : GoString) : HTTPRequest :=
  { Method := goStr "POST"
    URL := { Path := goStr "/api/v3/slave/upload" }
    Header := fun k => if k = goStr "X-Policy" then some [policyEncoded] else none }

/-- The end of `Handler.Token`: reading the `Authorization` header of the
signed request. -/
def tokenResult (signed : HTTPRequest) (policyEncoded : GoString) :
    UploadCredential × Option GoError :=
  match signed.Header (goStr "Authorization") with
  | some [credential] => ({ Token := credential, Policy := policyEncoded }, none)
  | _ => ({}, some (errorsNew (goStr "无法签名上传策略")))

/-- The start of `Handler.Token`: the callback address and the upload policy
around it. Resolving a nil reference stops the call. -/
def tokenPolicy (env : Env) (handler : Handler) (key : GoString) : Outcome UploadPolicy :=
  match env.GetSiteURL.ResolveReference (callbackReference env key) with
  | Outcome.panicked => Outcome.panicked
  | Outcome.returned apiURL => Outcome.returned (uploadPolicy handler apiURL)

/-- The method `Handler.Token`. -/
def Token (env : Env) (handler : Handler) (_ctx : Context) (TTL : Int) (key : GoString) :
    Outcome (UploadCredential × Option GoError) :=
  match tokenPolicy env handler key with
  | Outcome.panicked => Outcome.panicked
  | Outcome.returned policy =>
    match env.EncodeUploadPolicy policy with
    | Except.error err => Outcome.returned ({}, some err)
    | Except.ok policyEncoded =>
      match uploadRequest env policyEncoded with
      | none => Outcome.panicked
      | some request =>
        Outcome.returned (tokenResult (handler.AuthInstance.SignRequest request TTL) policyEncoded)

/-! ## A deployment for the examples

A master at `https://cloud.example` with one slave node at
`http://slave.example:5212`. The codec, the signer and the client are scripted:
they answer the inputs of the examples as the real ones do and refuse every
other input. -/

/-- The authority of a host name with an optional port and no user, which
`parseAuthority` hands back as the host. -/
def exampleAuthority : AuthorityParser := fun authority => Except.ok (none, authority)

/-- The body `{"files":[...]}` of a list of plain names. -/
def exampleMarshal (r : RemoteDeleteRequest) : Except GoError GoString :=
  Except.ok (goStr "\x7b\"files\":[" ++
    List.intercalate (goStr ",") (r.Files.map (fun f => goStr "\"" ++ f ++ goStr "\"")) ++
    goStr "]\x7d")

/-- The request body for `a.txt` and `b.txt`. -/
def requestAB : GoString := goStr "\x7b\"files\":[\"a.txt\",\"b.txt\"]\x7d"

/-- The request body for `a.txt` alone. -/
def requestA : GoString := goStr "\x7b\"files\":[\"a.txt\"]\x7d"

/-- The response `{"code":0}`. -/
def bodyDeleted : GoString := goStr "\x7b\"code\":0\x7d"

/-- The payload `{"files":["b.txt"]}`. -/
def payloadB : GoString := goStr "\x7b\"files\":[\"b.txt\"]\x7d"

/-- The payload `{"files":["z.txt"]}`. -/
def payloadZ : GoString := goStr "\x7b\"files\":[\"z.txt\"]\x7d"

/-- The response `{"code":1,"data":"{\"files\":[\"b.txt\"]}","error":"disk busy"}`. -/
def bodyReportsB : GoString :=
  goStr "\x7b\"code\":1,\"data\":\"\x7b\\\"files\\\":[\\\"b.txt\\\"]\x7d\",\"error\":\"disk busy\"\x7d"

/-- The response `{"code":1,"data":"{\"files\":[\"z.txt\"]}","error":"disk busy"}`. -/
def bodyReportsZ : GoString :=
  goStr "\x7b\"code\":1,\"data\":\"\x7b\\\"files\\\":[\\\"z.txt\\\"]\x7d\",\"error\":\"disk busy\"\x7d"

/-- The response `{"code":1,"data":"not json","error":"disk busy"}`. -/
def bodyNotJSON : GoString :=
  goStr "\x7b\"code\":1,\"data\":\"not json\",\"error\":\"disk busy\"\x7d"

/-- The payload `{"x":1}`: valid JSON that is not of the shape of a file list. -/
def payloadOther : GoString := goStr "\x7b\"x\":1\x7d"

/-- The response `{"code":1,"data":"{\"x\":1}","error":"disk busy"}`. -/
def bodyOtherShape : GoString :=
  goStr "\x7b\"code\":1,\"data\":\"\x7b\\\"x\\\":1\x7d\",\"error\":\"disk busy\"\x7d"

/-- The envelopes of the examples. -/
def exampleUnmarshalResponse (body : GoString) : Except GoError Response :=
  if body = bodyDeleted then
    Except.ok { Code := 0, Data := DataValue.null, Error := [] }
  else if body = bodyReportsB then
    Except.ok
      { Code := 1, Data := DataValue.string payloadB,
        Error := goStr "disk busy" }
  else if body = bodyReportsZ then
    Except.ok
      { Code := 1, Data := DataValue.string payloadZ,
        Error := goStr "disk busy" }
  else if body = bodyNotJSON then
    Except.ok
      { Code := 1, Data := DataValue.string (goStr "not json"), Error := goStr "disk busy" }
  else if body = bodyOtherShape then
    Except.ok { Code := 1, Data := DataValue.string payloadOther, Error := goStr "disk busy" }
  else Except.error (GoError.external (goStr "invalid character"))

/-- The lists of undeleted files of the examples. An object without a `files`
member decodes without error: `encoding/json` skips the members the target
does not have and leaves `Files` nil. -/
def exampleUnmarshalDeleteRequest (data : GoString) : Except GoError RemoteDeleteRequest :=
  if data = payloadB then Except.ok { Files := [goStr "b.txt"] }
  else if data = payloadZ then Except.ok { Files := [goStr "z.txt"] }
  else if data = payloadOther then Except.ok { Files := [] }
  else Except.error (GoError.external (goStr "invalid character"))

/-- The package-level collaborators of the examples. -/
def exampleEnv : Env :=
  { jsonMarshal := exampleMarshal
    jsonUnmarshalResponse := exampleUnmarshalResponse
    jsonUnmarshalDeleteRequest := exampleUnmarshalDeleteRequest
    GetIntSetting := fun _ defaultValue => defaultValue
    GetSiteURL := { Scheme := goStr "https", Host := goStr "cloud.example" }
    EncodeUploadPolicy := fun policy => Except.ok (rawURLEncode policy.CallbackURL)
    CodeEncryptError := 50002
    parseAuthority := exampleAuthority }

/-- A signer that appends `sign=s3cr3t` to an address and sets one
`Authorization` value on a request. -/
def exampleAuth : Auth :=
  { SignURI := fun uri _ => Except.ok { Path := uri, RawQuery := goStr "sign=s3cr3t" }
    SignRequest := fun r _ =>
      { r with
        Header := fun k => if k = goStr "Authorization" then some [goStr "Bearer s3cr3t"]
          else r.Header k } }

/-- The storage policy of the examples. -/
def examplePolicy : Policy :=
  { Server := goStr "http://slave.example:5212"
    DirNameRule := goStr "uploads"
    FileNameRule := goStr "\x7boriginname\x7d"
    AutoRename := true
    MaxSize := 1048576
    FileType := [] }

/-- A handler whose slave node answers every call with `body`. -/
def exampleHandler (body : GoString) : Handler :=
  { Client := { Request := fun _ => Except.ok body }
    Policy := examplePolicy
    AuthInstance := exampleAuth }

/-- The call `Delete` makes in the examples for a request body. -/
def exampleDeleteCall (body : GoString) : HTTPCall :=
  { Method := goStr "POST"
    Target := goStr "http://slave.example:5212/api/v3/slave/delete"
    Body := body
    CredentialTTL := 60 }

/-- A context that carries no file. -/
def emptyContext : Context := { FileModel := none }

/-- The prefix shared by the controllers of `Source`. -/
def slavePrefix : GoString := goStr "/api/v3/slave/"

/-- The `/`-separated fields of an address after the prefix of the controllers. -/
def fieldsAfterPrefix (uri : GoString) : List GoString :=
  stringsSplit (uri.drop slavePrefix.length) (ch '/')

/-- The bytes that may stand in a callback key without changing how the
address is read: letters, digits and `- _ . ~ $ & + , : ; = @`. -/
def isKeyByte (c : Byte) : Bool :=
  isLetter c || isDigit c || (goStr "-_.~$&+,:;=@").contains c

/-- The bytes of an absolute path that is read as it is written: the bytes of
a key, and the separator `/`. -/
def isPlainPathByte (c : Byte) : Bool := isKeyByte c || c == ch '/'

/-- What `(*URL).String()` writes before the path of a callback address: the
scheme, `//`, the user and the host of the site. -/
def callbackBase (site : URL) : GoString :=
  URL.stringAuthority
    { Scheme := site.Scheme, User := site.User, Host := site.Host, Path := callbackPrefix }

/-- A callback key made of bytes that are neither separators nor escaped, and
that is not a dot segment. -/
def plainKey (key : GoString) : Prop :=
  (∀ c ∈ key, isKeyByte c = true) ∧ key ≠ goStr "." ∧ key ≠ goStr ".."

/-! ## Properties -/

/-! ### The path token -/

set_option maxRecDepth 100000 in
theorem alphabet_entry : ∀ i : Fin 64,
    decodeMap (encodeAt i.val) = i.val ∧ isTokenByte (encodeAt i.val) = true := by
  decide

theorem decodeMap_encodeAt {i : Nat} (h : i < 64) : decodeMap (encodeAt i) = i :=
  (alphabet_entry ⟨i, h⟩).1

theorem isTokenByte_encodeAt {i : Nat} (h : i < 64) : isTokenByte (encodeAt i) = true :=
  (alphabet_entry ⟨i, h⟩).2

set_option maxRecDepth 100000 in
theorem tokenByte_facts : ∀ c : Byte, isTokenByte c = true →
    c ≠ ch '\n' ∧ c ≠ ch '\r' ∧ c ≠ ch '/' ∧ c ≠ ch '+' ∧ c ≠ ch '=' ∧ c ≠ ch '?' ∧
      c ≠ ch '%' := by
  decide

theorem byte_ofNat_eq (a : Byte) (n : Nat) (h : n % 256 = a.val) : (Fin.ofNat n : Byte) = a := by
  apply Fin.ext
  simpa [Fin.ofNat] using h

theorem rawURLEncode_tokenBytes : ∀ path : List Byte, ∀ c ∈ rawURLEncode path, isTokenByte c = true
  | [] => by simp [rawURLEncode]
  | [a] => by
    intro c hc
    simp only [rawURLEncode, List.mem_cons, List.mem_singleton, List.not_mem_nil, or_false] at hc
    rcases hc with rfl | rfl <;> exact isTokenByte_encodeAt (Nat.mod_lt _ (by decide))
  | [a, b] => by
    intro c hc
    simp only [rawURLEncode, List.mem_cons, List.mem_singleton, List.not_mem_nil, or_false] at hc
    rcases hc with rfl | rfl | rfl <;> exact isTokenByte_encodeAt (Nat.mod_lt _ (by decide))
  | a :: b :: c :: rest => by
    intro x hx
    simp only [rawURLEncode, List.mem_cons] at hx
    rcases hx with rfl | rfl | rfl | rfl | hx
    · exact isTokenByte_encodeAt (Nat.mod_lt _ (by decide))
    · exact isTokenByte_encodeAt (Nat.mod_lt _ (by decide))
    · exact isTokenByte_encodeAt (Nat.mod_lt _ (by decide))
    · exact isTokenByte_encodeAt (Nat.mod_lt _ (by decide))
    · exact rawURLEncode_tokenBytes rest x hx

theorem decodeQuanta_encode : ∀ path : List Byte,
    decodeQuanta ((rawURLEncode path).map decodeMap) = some path
  | [] => by simp [rawURLEncode, decodeQuanta]
  | [a] => by
    have ha := a.isLt
    simp only [rawURLEncode, List.map, decodeMap_encodeAt (Nat.mod_lt _ (by decide : 0 < 64)),
      decodeQuanta]
    rw [if_pos ⟨Nat.mod_lt _ (by decide), Nat.mod_lt _ (by decide)⟩]
    simp only [Option.some.injEq, List.cons.injEq, and_true]
    apply byte_ofNat_eq
    omega
  | [a, b] => by
    have ha := a.isLt
    have hb := b.isLt
    simp only [rawURLEncode, List.map, decodeMap_encodeAt (Nat.mod_lt _ (by decide : 0 < 64)),
      decodeQuanta]
    rw [if_pos ⟨Nat.mod_lt _ (by decide), Nat.mod_lt _ (by decide), Nat.mod_lt _ (by decide)⟩]
    simp only [Option.some.injEq, List.cons.injEq, and_true]
    constructor <;> (apply byte_ofNat_eq; omega)
  | a :: b :: c :: rest => by
    have ha := a.isLt
    have hb := b.isLt
    have hc := c.isLt
    have ih := decodeQuanta_encode rest
    simp only [rawURLEncode, List.map, decodeMap_encodeAt (Nat.mod_lt _ (by decide : 0 < 64)),
      decodeQuanta]
    rw [if_pos ⟨Nat.mod_lt _ (by decide), Nat.mod_lt _ (by decide), Nat.mod_lt _ (by decide),
      Nat.mod_lt _ (by decide)⟩, ih]
    simp only [Option.some.injEq, List.cons.injEq, and_true]
    refine ⟨?_, ?_, ?_⟩ <;> (apply byte_ofNat_eq; omega)

/-- C5: the path token of `Thumb` and `Source`, the unpadded URL-safe base64
of the bytes of the path, is reversible: for every path, whatever its bytes,
decoding the token gives back the path, and the token holds only characters
of `A-Z a-z 0-9 - _`, so none of `/`, `+`, `=`, `?` and `%`. -/
theorem pathToken_roundtrip (path : List Byte) :
    rawURLDecode (rawURLEncode path) = some path ∧
      ∀ c ∈ rawURLEncode path, isTokenByte c = true ∧ c ≠ ch '/' ∧ c ≠ ch '+' ∧ c ≠ ch '=' ∧
        c ≠ ch '?' ∧ c ≠ ch '%' := by
  have htok := rawURLEncode_tokenBytes path
  constructor
  · have hfilter : (rawURLEncode path).filter (fun c => c != ch '\n' && c != ch '\r') =
        rawURLEncode path := by
      apply List.filter_eq_self.mpr
      intro c hc
      have h := tokenByte_facts c (htok c hc)
      simp [h.1, h.2.1]
    unfold rawURLDecode
    rw [hfilter]
    exact decodeQuanta_encode path
  · intro c hc
    have h := tokenByte_facts c (htok c hc)
    exact ⟨htok c hc, h.2.2.1, h.2.2.2.1, h.2.2.2.2.1, h.2.2.2.2.2.1, h.2.2.2.2.2.2⟩

/-! ### Delete and Put -/

theorem Parse_delete_controller (pa : AuthorityParser) :
    Parse pa (goStr "/api/v3/slave/delete") = Except.ok { Path := goStr "/api/v3/slave/delete" } :=
  rfl

theorem Parse_thumb_controller (pa : AuthorityParser) :
    Parse pa (goStr "/api/v3/slave/thumb") = Except.ok { Path := goStr "/api/v3/slave/thumb" } :=
  rfl

theorem Parse_upload_address (pa : AuthorityParser) :
    Parse pa (goStr "/api/v3/slave/upload") = Except.ok { Path := goStr "/api/v3/slave/upload" } :=
  rfl

/-- The address of the delete interface never stops with a panic. -/
theorem getAPIUrl_delete_returns (env : Env) (handler : Handler) :
    ∃ target, getAPIUrl env handler (goStr "delete") = Outcome.returned target := by
  unfold getAPIUrl
  cases Parse env.parseAuthority handler.Policy.Server with
  | error e => exact ⟨_, rfl⟩
  | ok serverURL =>
    simp only [getAPIUrlController, if_true, Parse_delete_controller, pointerOf,
      URL.ResolveReference]
    exact ⟨_, rfl⟩

/-- `Delete` always returns: it never stops with a panic. -/
theorem Delete_returns (env : Env) (handler : Handler) (ctx : Context) (files : List GoString) :
    ∃ r, Delete env handler ctx files = Outcome.returned r := by
  obtain ⟨target, ht⟩ := getAPIUrl_delete_returns env handler
  unfold Delete
  cases env.jsonMarshal { Files := files } with
  | error e => exact ⟨_, rfl⟩
  | ok body =>
    simp only [ht]
    cases handler.Client.Request _ with
    | error e => exact ⟨_, rfl⟩
    | ok resp =>
      simp only []
      cases env.jsonUnmarshalResponse resp with
      | error e => exact ⟨_, rfl⟩
      | ok reqResp => exact ⟨_, rfl⟩

/-- What `Delete` returns once the envelope of the response is decoded. -/
theorem Delete_decoded (env : Env) (handler : Handler) (ctx : Context) (files : List GoString)
    (body target resp : GoString) (reqResp : Response)
    (hmarshal : env.jsonMarshal { Files := files } = Except.ok body)
    (htarget : getAPIUrl env handler (goStr "delete") = Outcome.returned target)
    (hcall : handler.Client.Request
      { Method := goStr "POST", Target := target, Body := body,
        CredentialTTL := env.GetIntSetting (goStr "slave_api_timeout") 60 } = Except.ok resp)
    (hdecode : env.jsonUnmarshalResponse resp = Except.ok reqResp) :
    Delete env handler ctx files = Outcome.returned
      { ret := deleteResult env files reqResp
        sent := [{ Method := goStr "POST", Target := target, Body := body,
                   CredentialTTL := env.GetIntSetting (goStr "slave_api_timeout") 60 }] } := by
  unfold Delete
  simp only [hmarshal, htarget, hcall, hdecode]

/-- C1: when the call to the remote node succeeds and the body decodes to an
envelope whose code is 0, `Delete` returns the empty list and no error,
whatever the data and error fields of the envelope hold. -/
theorem Delete_code_zero (env : Env) (handler : Handler) (ctx : Context) (files : List GoString)
    (body target resp : GoString) (reqResp : Response)
    (hmarshal : env.jsonMarshal { Files := files } = Except.ok body)
    (htarget : getAPIUrl env handler (goStr "delete") = Outcome.returned target)
    (hcall : handler.Client.Request
      { Method := goStr "POST", Target := target, Body := body,
        CredentialTTL := env.GetIntSetting (goStr "slave_api_timeout") 60 } = Except.ok resp)
    (hdecode : env.jsonUnmarshalResponse resp = Except.ok reqResp)
    (hcode : reqResp.Code = 0) :
    Delete env handler ctx files = Outcome.returned
      { ret := ([], none)
        sent := [{ Method := goStr "POST", Target := target, Body := body,
                   CredentialTTL := env.GetIntSetting (goStr "slave_api_timeout") 60 }] } := by
  rw [Delete_decoded env handler ctx files body target resp reqResp hmarshal htarget hcall hdecode]
  simp [deleteResult, hcode]

theorem Delete_code_zero_witness :
    Delete exampleEnv (exampleHandler bodyDeleted) emptyContext
      [goStr "a.txt", goStr "b.txt"] = Outcome.returned
      { ret := ([], none)
        sent := [exampleDeleteCall requestAB] } :=
  Delete_code_zero exampleEnv (exampleHandler bodyDeleted) emptyContext
    [goStr "a.txt", goStr "b.txt"] requestAB
    (goStr "http://slave.example:5212/api/v3/slave/delete") bodyDeleted
    { Code := 0, Data := DataValue.null, Error := [] }
    (by decide) (by decide) (by decide) (by decide) (by decide)

/-- C2: when the envelope has a non-zero code and its data is a string that
decodes as a list of files, `Delete` returns exactly the decoded list together
with an error whose message is the error field of the envelope. -/
theorem Delete_reported_failures (env : Env) (handler : Handler) (ctx : Context)
    (files : List GoString) (body target resp failed : GoString) (reqResp : Response)
    (failedResp : RemoteDeleteRequest)
    (hmarshal : env.jsonMarshal { Files := files } = Except.ok body)
    (htarget : getAPIUrl env handler (goStr "delete") = Outcome.returned target)
    (hcall : handler.Client.Request
      { Method := goStr "POST", Target := target, Body := body,
        CredentialTTL := env.GetIntSetting (goStr "slave_api_timeout") 60 } = Except.ok resp)
    (hdecode : env.jsonUnmarshalResponse resp = Except.ok reqResp)
    (hcode : reqResp.Code ≠ 0)
    (hdata : reqResp.Data = DataValue.string failed)
    (hfailed : env.jsonUnmarshalDeleteRequest failed = Except.ok failedResp) :
    ∃ err : GoError, err.message = reqResp.Error ∧
      Delete env handler ctx files = Outcome.returned
        { ret := (failedResp.Files, some err)
          sent := [{ Method := goStr "POST", Target := target, Body := body,
                     CredentialTTL := env.GetIntSetting (goStr "slave_api_timeout") 60 }] } := by
  refine ⟨errorsNew reqResp.Error, rfl, ?_⟩
  rw [Delete_decoded env handler ctx files body target resp reqResp hmarshal htarget hcall hdecode]
  simp [deleteResult, hcode, hdata, hfailed]

theorem Delete_reported_failures_witness :
    ∃ err : GoError, err.message = goStr "disk busy" ∧
      Delete exampleEnv
        (exampleHandler bodyReportsB)
        emptyContext [goStr "a.txt", goStr "b.txt"] = Outcome.returned
        { ret := ([goStr "b.txt"], some err)
          sent := [exampleDeleteCall requestAB] } :=
  Delete_reported_failures exampleEnv
    (exampleHandler bodyReportsB)
    emptyContext [goStr "a.txt", goStr "b.txt"] requestAB
    (goStr "http://slave.example:5212/api/v3/slave/delete")
    bodyReportsB payloadB
    { Code := 1, Data := DataValue.string payloadB, Error := goStr "disk busy" }
    { Files := [goStr "b.txt"] }
    (by decide) (by decide) (by decide) (by decide) (by decide) (by decide) (by decide)

/-- C3, as stated, fails: the payload `{"x":1}` is valid JSON that is not of
the shape of a file list, yet the decoder returns no error for it, and
`Delete` returns the empty list with the error of the node, "disk busy",
instead of the requested list with the format error. -/
theorem Delete_other_shape_decodes :
    Delete exampleEnv (exampleHandler bodyOtherShape) emptyContext
        [goStr "a.txt", goStr "b.txt"] = Outcome.returned
        { ret := ([], some (errorsNew (goStr "disk busy")))
          sent := [exampleDeleteCall requestAB] } ∧
      (([] : List GoString), some (errorsNew (goStr "disk busy"))) ≠
        ([goStr "a.txt", goStr "b.txt"], some (errorsNew (goStr "未知的返回结果格式"))) := by
  decide

/-- C3, amended: when the envelope has a non-zero code and its data is not a
string, or is a string for which the JSON decoder returns an error, `Delete`
returns the requested list unchanged together with the error
"未知的返回结果格式" (unrecognized response format). -/
theorem Delete_undecodable_data (env : Env) (handler : Handler) (ctx : Context)
    (files : List GoString) (body target resp : GoString) (reqResp : Response)
    (hmarshal : env.jsonMarshal { Files := files } = Except.ok body)
    (htarget : getAPIUrl env handler (goStr "delete") = Outcome.returned target)
    (hcall : handler.Client.Request
      { Method := goStr "POST", Target := target, Body := body,
        CredentialTTL := env.GetIntSetting (goStr "slave_api_timeout") 60 } = Except.ok resp)
    (hdecode : env.jsonUnmarshalResponse resp = Except.ok reqResp)
    (hcode : reqResp.Code ≠ 0)
    (hdata : ∀ failed, reqResp.Data = DataValue.string failed →
      ∃ e, env.jsonUnmarshalDeleteRequest failed = Except.error e) :
    Delete env handler ctx files = Outcome.returned
      { ret := (files, some (errorsNew (goStr "未知的返回结果格式")))
        sent := [{ Method := goStr "POST", Target := target, Body := body,
                   CredentialTTL := env.GetIntSetting (goStr "slave_api_timeout") 60 }] } := by
  rw [Delete_decoded env handler ctx files body target resp reqResp hmarshal htarget hcall hdecode]
  unfold deleteResult
  rw [if_pos hcode]
  cases hd : reqResp.Data with
  | string failed =>
    obtain ⟨e, he⟩ := hdata failed hd
    simp [he]
  | null => rfl
  | bool => rfl
  | number => rfl
  | array => rfl
  | object => rfl

theorem Delete_undecodable_data_witness :
    Delete exampleEnv
      (exampleHandler bodyNotJSON)
      emptyContext [goStr "a.txt", goStr "b.txt"] = Outcome.returned
      { ret := ([goStr "a.txt", goStr "b.txt"], some (errorsNew (goStr "未知的返回结果格式")))
        sent := [exampleDeleteCall requestAB] } :=
  Delete_undecodable_data exampleEnv
    (exampleHandler bodyNotJSON)
    emptyContext [goStr "a.txt", goStr "b.txt"] requestAB
    (goStr "http://slave.example:5212/api/v3/slave/delete")
    bodyNotJSON
    { Code := 1, Data := DataValue.string (goStr "not json"), Error := goStr "disk busy" }
    (by decide) (by decide) (by decide) (by decide) (by decide)
    (by
      intro failed h
      cases h
      exact ⟨GoError.external (goStr "invalid character"), by decide⟩)

/-- C4, as stated, fails: asked to delete `a.txt`, a node that reports `z.txt`
as undeleted makes `Delete` return `z.txt`, which was not requested. -/
theorem Delete_returns_unrequested :
    ∃ r, Delete exampleEnv
        (exampleHandler bodyReportsZ)
        emptyContext [goStr "a.txt"] = Outcome.returned r ∧
      ¬ ∀ x ∈ r.ret.1, x ∈ [goStr "a.txt"] :=
  ⟨{ ret := ([goStr "z.txt"], some (errorsNew (goStr "disk busy")))
     sent := [exampleDeleteCall requestA] }, by decide, by decide⟩

/-- C4, amended: `Delete` always returns, and each element of the returned
list is an element of the requested list or an element of the list of files
decoded from the data of a response whose code is not 0. -/
theorem Delete_returns_requested_or_reported (env : Env) (handler : Handler) (ctx : Context)
    (files : List GoString) :
    ∃ r, Delete env handler ctx files = Outcome.returned r ∧
      ∀ x ∈ r.ret.1, x ∈ files ∨
        ∃ call resp reqResp failed failedResp,
          call ∈ r.sent ∧ handler.Client.Request call = Except.ok resp ∧
          env.jsonUnmarshalResponse resp = Except.ok reqResp ∧ reqResp.Code ≠ 0 ∧
          reqResp.Data = DataValue.string failed ∧
          env.jsonUnmarshalDeleteRequest failed = Except.ok failedResp ∧
          x ∈ failedResp.Files := by
  obtain ⟨target, ht⟩ := getAPIUrl_delete_returns env handler
  unfold Delete
  cases hm : env.jsonMarshal { Files := files } with
  | error e => exact ⟨_, rfl, fun x hx => Or.inl hx⟩
  | ok body =>
    simp only [ht]
    cases hc : handler.Client.Request
      { Method := goStr "POST", Target := target, Body := body,
        CredentialTTL := env.GetIntSetting (goStr "slave_api_timeout") 60 } with
    | error e => exact ⟨_, rfl, fun x hx => Or.inl hx⟩
    | ok resp =>
      simp only []
      cases hu : env.jsonUnmarshalResponse resp with
      | error e => exact ⟨_, rfl, fun x hx => Or.inl hx⟩
      | ok reqResp =>
        refine ⟨_, rfl, ?_⟩
        simp only [deleteResult]
        by_cases hcode : reqResp.Code = 0
        · simp [hcode]
        · rw [if_pos hcode]
          cases hd : reqResp.Data with
          | string failed =>
            cases hf : env.jsonUnmarshalDeleteRequest failed with
            | error e =>
              intro x hx
              simp only [hf] at hx
              exact Or.inl hx
            | ok failedResp =>
              intro x hx
              simp only [hf] at hx
              exact Or.inr ⟨_, resp, reqResp, failed, failedResp, List.mem_singleton.mpr rfl,
                hc, hu, hcode, hd, hf, hx⟩
          | null => exact fun x hx => Or.inl hx
          | bool => exact fun x hx => Or.inl hx
          | number => exact fun x hx => Or.inl hx
          | array => exact fun x hx => Or.inl hx
          | object => exact fun x hx => Or.inl hx

/-- C8: `Put` fails for every input: it returns the error
"远程策略不支持此上传方式" (this way of uploading is not supported by the remote
policy) and makes no call on the client. -/
theorem Put_always_fails (handler : Handler) (ctx : Context) (file dst : GoString) (size : Nat) :
    (Put handler ctx file dst size).ret = some (errorsNew (goStr "远程策略不支持此上传方式")) ∧
      (Put handler ctx file dst size).ret ≠ none ∧
      (Put handler ctx file dst size).sent = [] :=
  ⟨rfl, by simp [Put], rfl⟩

/-! ### The addresses of the interfaces -/

/-- C10, as stated, fails: for the names `download`, `source` and `upload` the
`switch` of `getAPIUrl` leaves the controller nil, and resolving it stops the
call, although the address of the server parses. -/
theorem getAPIUrl_unknown_scope_panics :
    (∃ serverURL, Parse exampleEnv.parseAuthority (exampleHandler []).Policy.Server =
        Except.ok serverURL) ∧
      getAPIUrl exampleEnv (exampleHandler []) (goStr "download") = Outcome.panicked ∧
      getAPIUrl exampleEnv (exampleHandler []) (goStr "source") = Outcome.panicked ∧
      getAPIUrl exampleEnv (exampleHandler []) (goStr "upload") = Outcome.panicked :=
  ⟨⟨{ Scheme := goStr "http", Host := goStr "slave.example:5212" }, by decide⟩,
    by decide, by decide, by decide⟩

/-- C10, amended: for a server address that parses and each of the two names
`delete` and `thumb`, `getAPIUrl` returns the server address resolved against
the sub-path of the name, `/api/v3/slave/delete` or `/api/v3/slave/thumb`. -/
theorem getAPIUrl_delete_thumb (env : Env) (handler : Handler) (serverURL : URL)
    (hserver : Parse env.parseAuthority handler.Policy.Server = Except.ok serverURL) :
    (∃ controller,
      Parse env.parseAuthority (goStr "/api/v3/slave/delete") = Except.ok controller ∧
      getAPIUrl env handler (goStr "delete") =
        Outcome.returned (serverURL.resolveReference controller).String) ∧
    (∃ controller,
      Parse env.parseAuthority (goStr "/api/v3/slave/thumb") = Except.ok controller ∧
      getAPIUrl env handler (goStr "thumb") =
        Outcome.returned (serverURL.resolveReference controller).String) := by
  constructor
  · refine ⟨_, Parse_delete_controller _, ?_⟩
    simp only [getAPIUrl, hserver, getAPIUrlController, if_true, Parse_delete_controller,
      pointerOf, URL.ResolveReference]
  · refine ⟨_, Parse_thumb_controller _, ?_⟩
    have hne : goStr "thumb" ≠ goStr "delete" := by decide
    simp only [getAPIUrl, hserver, getAPIUrlController, if_true, if_neg hne,
      Parse_thumb_controller, pointerOf, URL.ResolveReference]

theorem getAPIUrl_delete_thumb_witness :
    (∃ controller,
      Parse exampleEnv.parseAuthority (goStr "/api/v3/slave/delete") = Except.ok controller ∧
      getAPIUrl exampleEnv (exampleHandler []) (goStr "delete") =
        Outcome.returned
          (URL.resolveReference { Scheme := goStr "http", Host := goStr "slave.example:5212" }
            controller).String) ∧
    (∃ controller,
      Parse exampleEnv.parseAuthority (goStr "/api/v3/slave/thumb") = Except.ok controller ∧
      getAPIUrl exampleEnv (exampleHandler []) (goStr "thumb") =
        Outcome.returned
          (URL.resolveReference { Scheme := goStr "http", Host := goStr "slave.example:5212" }
            controller).String) :=
  getAPIUrl_delete_thumb exampleEnv (exampleHandler [])
    { Scheme := goStr "http", Host := goStr "slave.example:5212" } (by decide)

/-! ### Token: encoding and signing -/

theorem uploadRequest_eq (env : Env) (policyEncoded : GoString) :
    uploadRequest env policyEncoded = some (syntheticRequest policyEncoded) := by
  simp only [uploadRequest, Parse_upload_address, syntheticRequest]

/-- C9: at the key `%zz` the code departs from the claim. The callback
reference does not parse, its error is discarded and the nil reference is
resolved: `Token` stops with a panic, where the claim has it return either the
credential or the empty credential with an error (here the policy encodes and
the signer sets one header value). -/
theorem Token_unparseable_key_panics :
    Token exampleEnv (exampleHandler []) emptyContext 3600 (goStr "%zz") = Outcome.panicked := by
  decide

/-- What `Token` does when the callback reference of the key parses: it
returns, and it succeeds exactly when the policy encodes and the signed
`POST /api/v3/slave/upload` request carries exactly one `Authorization` value;
the credential is then that value with the encoded policy that was placed in
`X-Policy`. In every other case it returns the empty credential with the
encoding error or the error "无法签名上传策略" (cannot sign the upload policy). -/
theorem Token_result (env : Env) (handler : Handler) (ctx : Context) (TTL : Int)
    (key : GoString)
    (hkey : ∃ ref, Parse env.parseAuthority (callbackPrefix ++ key) = Except.ok ref) :
    ∃ policy, tokenPolicy env handler key = Outcome.returned policy ∧
      (∀ p, (syntheticRequest p).Method = goStr "POST" ∧
        (syntheticRequest p).URL.String = goStr "/api/v3/slave/upload" ∧
        (syntheticRequest p).Header (goStr "X-Policy") = some [p]) ∧
      ((∃ cred, Token env handler ctx TTL key = Outcome.returned (cred, none)) ↔
        ∃ p c, env.EncodeUploadPolicy policy = Except.ok p ∧
          (handler.AuthInstance.SignRequest (syntheticRequest p) TTL).Header
            (goStr "Authorization") = some [c]) ∧
      (∀ p c, env.EncodeUploadPolicy policy = Except.ok p →
        (handler.AuthInstance.SignRequest (syntheticRequest p) TTL).Header
          (goStr "Authorization") = some [c] →
        Token env handler ctx TTL key =
          Outcome.returned ({ Token := c, Policy := p }, none)) ∧
      (∀ e, env.EncodeUploadPolicy policy = Except.error e →
        Token env handler ctx TTL key = Outcome.returned ({}, some e)) ∧
      (∀ p, env.EncodeUploadPolicy policy = Except.ok p →
        (∀ c, (handler.AuthInstance.SignRequest (syntheticRequest p) TTL).Header
          (goStr "Authorization") ≠ some [c]) →
        Token env handler ctx TTL key =
          Outcome.returned ({}, some (errorsNew (goStr "无法签名上传策略")))) := by
  obtain ⟨ref, href⟩ := hkey
  have hpol : tokenPolicy env handler key =
      Outcome.returned (uploadPolicy handler (env.GetSiteURL.resolveReference ref)) := by
    simp only [tokenPolicy, callbackReference, href, pointerOf, URL.ResolveReference]
  refine ⟨_, hpol, fun p => ⟨rfl, by rfl, by simp [syntheticRequest]⟩, ?_, ?_, ?_, ?_⟩
  · constructor
    · rintro ⟨cred, h⟩
      simp only [Token, hpol] at h
      cases he : env.EncodeUploadPolicy
          (uploadPolicy handler (env.GetSiteURL.resolveReference ref)) with
      | error e => simp [he] at h
      | ok p =>
        simp only [he, uploadRequest_eq, tokenResult] at h
        refine ⟨p, ?_⟩
        generalize (handler.AuthInstance.SignRequest (syntheticRequest p) TTL).Header
          (goStr "Authorization") = hd at h ⊢
        match hd, h with
        | some [c], _ => exact ⟨c, rfl, rfl⟩
        | none, h => simp at h
        | some [], h => simp at h
        | some (_ :: _ :: _), h => simp at h
    · rintro ⟨p, c, he, hh⟩
      exact ⟨{ Token := c, Policy := p },
        by simp only [Token, hpol, he, uploadRequest_eq, tokenResult, hh]⟩
  · intro p c he hh
    simp only [Token, hpol, he, uploadRequest_eq, tokenResult, hh]
  · intro e he
    simp only [Token, hpol, he]
  · intro p he hh
    have hsplit : tokenResult (handler.AuthInstance.SignRequest (syntheticRequest p) TTL) p =
        ({}, some (errorsNew (goStr "无法签名上传策略"))) := by
      unfold tokenResult
      split
      · next c heq => exact absurd heq (hh c)
      · rfl
    simp only [Token, hpol, he, uploadRequest_eq, hsplit]

theorem Token_result_witness :
    ∃ policy, tokenPolicy exampleEnv (exampleHandler []) (goStr "k3y") =
        Outcome.returned policy ∧
      (∀ p, (syntheticRequest p).Method = goStr "POST" ∧
        (syntheticRequest p).URL.String = goStr "/api/v3/slave/upload" ∧
        (syntheticRequest p).Header (goStr "X-Policy") = some [p]) ∧
      ((∃ cred, Token exampleEnv (exampleHandler []) emptyContext 3600 (goStr "k3y") =
          Outcome.returned (cred, none)) ↔
        ∃ p c, exampleEnv.EncodeUploadPolicy policy = Except.ok p ∧
          ((exampleHandler []).AuthInstance.SignRequest (syntheticRequest p) 3600).Header
            (goStr "Authorization") = some [c]) ∧
      (∀ p c, exampleEnv.EncodeUploadPolicy policy = Except.ok p →
        ((exampleHandler []).AuthInstance.SignRequest (syntheticRequest p) 3600).Header
          (goStr "Authorization") = some [c] →
        Token exampleEnv (exampleHandler []) emptyContext 3600 (goStr "k3y") =
          Outcome.returned ({ Token := c, Policy := p }, none)) ∧
      (∀ e, exampleEnv.EncodeUploadPolicy policy = Except.error e →
        Token exampleEnv (exampleHandler []) emptyContext 3600 (goStr "k3y") =
          Outcome.returned ({}, some e)) ∧
      (∀ p, exampleEnv.EncodeUploadPolicy policy = Except.ok p →
        (∀ c, ((exampleHandler []).AuthInstance.SignRequest (syntheticRequest p) 3600).Header
          (goStr "Authorization") ≠ some [c]) →
        Token exampleEnv (exampleHandler []) emptyContext 3600 (goStr "k3y") =
          Outcome.returned ({}, some (errorsNew (goStr "无法签名上传策略")))) :=
  Token_result exampleEnv (exampleHandler []) emptyContext 3600 (goStr "k3y")
    ⟨{ Path := goStr "/api/v3/callback/remote/k3y" }, by decide⟩

/-! ### Splitting at a separator -/

theorem splitAux_not_mem (sep : Byte) :
    ∀ (s cur : GoString), sep ∉ s → splitAux sep s cur = [cur ++ s]
  | [], cur, _ => by simp [splitAux]
  | c :: rest, cur, h => by
    have hc : c ≠ sep := fun e => h (by simp [e])
    have hrest : sep ∉ rest := fun e => h (List.mem_cons_of_mem _ e)
    simp [splitAux, hc, splitAux_not_mem sep rest (cur ++ [c]) hrest]

theorem splitAux_append (sep : Byte) :
    ∀ (a rest cur : GoString), sep ∉ a →
      splitAux sep (a ++ sep :: rest) cur = (cur ++ a) :: splitAux sep rest []
  | [], rest, cur, _ => by simp [splitAux]
  | c :: a, rest, cur, h => by
    have hc : c ≠ sep := fun e => h (by simp [e])
    have ha : sep ∉ a := fun e => h (List.mem_cons_of_mem _ e)
    simp [splitAux, hc, splitAux_append sep a rest (cur ++ [c]) ha]

/-! ### The address that `Source` signs -/

theorem decimalDigits_no_slash :
    ∀ (fuel n : Nat), ch '/' ∉ decimalDigits fuel n
  | 0, _ => by simp [decimalDigits]
  | fuel + 1, n => by
    have hdigit : ∀ d : Nat, d < 10 → (Fin.ofNat (48 + d) : Byte) ≠ ch '/' := by
      intro d hd h
      have hv := congrArg Fin.val h
      have h47 : (ch '/').val = 47 := by decide
      simp only [Fin.ofNat, h47] at hv
      omega
    unfold decimalDigits
    split
    · next hlt =>
      intro hmem
      exact hdigit n hlt (List.mem_singleton.mp hmem).symm
    · intro hmem
      rcases List.mem_append.mp hmem with h | h
      · exact decimalDigits_no_slash fuel (n / 10) h
      · exact hdigit (n % 10) (Nat.mod_lt _ (by decide)) (List.mem_singleton.mp h).symm

theorem formatInt_no_slash (i : Int) : ch '/' ∉ formatInt i := by
  unfold formatInt
  split
  · intro hmem
    rcases List.mem_cons.mp hmem with h | h
    · exact absurd h (by decide)
    · exact decimalDigits_no_slash _ _ h
  · exact decimalDigits_no_slash _ _

theorem rawURLEncode_no_slash (path : List Byte) : ch '/' ∉ rawURLEncode path := by
  intro hmem
  exact (tokenByte_facts _ (rawURLEncode_tokenBytes path _ hmem)).2.2.1 rfl

/-- The name of a controller of `Source`, after the shared prefix. -/
theorem sourceController_eq (isDownload : Bool) :
    sourceController isDownload =
      slavePrefix ++ (if isDownload then goStr "download" else goStr "source") := by
  cases isDownload <;> decide

/-- C6, as stated, fails: a file name that holds a `/`, here `a/b`, adds a
field to the address, which then has five fields after the prefix. -/
theorem sourceURI_name_with_slash :
    fieldsAfterPrefix
        (sourceURI { FileModel := some { Name := goStr "a/b" } } (goStr "doc") true 0) =
      [goStr "download", goStr "0", goStr "ZG9j", goStr "a", goStr "b"] ∧
    (fieldsAfterPrefix
        (sourceURI { FileModel := some { Name := goStr "a/b" } } (goStr "doc") true 0)).length
      ≠ 4 := by
  decide

/-- C6, amended: for every path, speed and file name without a `/`, the
address that `Source` signs has exactly four `/`-separated fields after the
prefix `/api/v3/slave/`, in the order controller (`download` when isDownload
holds, `source` otherwise), decimal speed, path token, file name (`file` when
the context carries none); two calls that differ only in isDownload give
addresses that differ only in the controller. -/
theorem sourceURI_fields (ctx : Context) (path : GoString) (isDownload : Bool) (speed : Int)
    (hname : ch '/' ∉ sourceFileName ctx) :
    fieldsAfterPrefix (sourceURI ctx path isDownload speed) =
        [if isDownload then goStr "download" else goStr "source", formatInt speed,
          rawURLEncode path, sourceFileName ctx] ∧
      sourceFileName ctx = (match ctx.FileModel with
        | some file => file.Name
        | none => goStr "file") ∧
      sourceURI ctx path true speed = goStr "/api/v3/slave/download" ++
        (goStr "/" ++ formatInt speed ++ goStr "/" ++ rawURLEncode path ++ goStr "/" ++
          sourceFileName ctx) ∧
      sourceURI ctx path false speed = goStr "/api/v3/slave/source" ++
        (goStr "/" ++ formatInt speed ++ goStr "/" ++ rawURLEncode path ++ goStr "/" ++
          sourceFileName ctx) := by
  refine ⟨?_, rfl, ?_, ?_⟩
  · have hctl : ch '/' ∉ (if isDownload then goStr "download" else goStr "source") := by
      cases isDownload <;> decide
    have hslash : goStr "/" = [ch '/'] := by decide
    have hshape : sourceURI ctx path isDownload speed =
        slavePrefix ++ ((if isDownload then goStr "download" else goStr "source") ++
          ch '/' :: (formatInt speed ++ ch '/' :: (rawURLEncode path ++
            ch '/' :: sourceFileName ctx))) := by
      simp only [sourceURI, sourceController_eq, hslash, List.append_assoc,
        List.singleton_append, List.cons_append, List.nil_append]
    simp only [fieldsAfterPrefix, hshape, List.drop_left, stringsSplit]
    rw [splitAux_append _ _ _ _ hctl, splitAux_append _ _ _ _ (formatInt_no_slash speed),
      splitAux_append _ _ _ _ (rawURLEncode_no_slash path), splitAux_not_mem _ _ _ hname]
    simp
  · simp [sourceURI, sourceController, List.append_assoc]
  · simp [sourceURI, sourceController, List.append_assoc]

theorem sourceURI_fields_witness :
    fieldsAfterPrefix (sourceURI emptyContext (goStr "doc") false 100) =
        [if false then goStr "download" else goStr "source", formatInt 100,
          rawURLEncode (goStr "doc"), sourceFileName emptyContext] ∧
      sourceFileName emptyContext = (match emptyContext.FileModel with
        | some file => file.Name
        | none => goStr "file") ∧
      sourceURI emptyContext (goStr "doc") true 100 = goStr "/api/v3/slave/download" ++
        (goStr "/" ++ formatInt 100 ++ goStr "/" ++ rawURLEncode (goStr "doc") ++ goStr "/" ++
          sourceFileName emptyContext) ∧
      sourceURI emptyContext (goStr "doc") false 100 = goStr "/api/v3/slave/source" ++
        (goStr "/" ++ formatInt 100 ++ goStr "/" ++ rawURLEncode (goStr "doc") ++ goStr "/" ++
          sourceFileName emptyContext) :=
  sourceURI_fields emptyContext (goStr "doc") false 100 (by decide)

/-! ### The callback address of `Token` -/

set_option maxRecDepth 100000 in
theorem plainPathByte_facts : ∀ c : Byte, isPlainPathByte c = true →
    shouldEscape c Encoding.encodePath = false ∧ c ≠ ch '%' ∧ c ≠ ch '?' ∧ c ≠ ch '#' ∧
      (c < ch ' ' || c == 127) = false := by
  decide

set_option maxRecDepth 100000 in
theorem keyByte_facts : ∀ c : Byte, isKeyByte c = true →
    isPlainPathByte c = true ∧ c ≠ ch '/' := by
  decide

theorem split_not_mem (s : GoString) (c : Byte) (cutc : Bool) (h : c ∉ s) :
    split s c cutc = (s, []) := by
  have hdrop : s.dropWhile (fun x => x != c) = [] := by
    rw [List.dropWhile_eq_nil_iff]
    intro x hx
    have : x ≠ c := fun e => h (e ▸ hx)
    simpa using this
  simp [split, hdrop]

theorem unescapeCheck_no_percent :
    ∀ s : GoString, ch '%' ∉ s → unescapeCheck Encoding.encodePath s = Except.ok ()
  | [], _ => by simp [unescapeCheck]
  | c :: rest, h => by
    have hc : c ≠ ch '%' := fun e => h (by simp [e])
    have hrest : ch '%' ∉ rest := fun e => h (List.mem_cons_of_mem _ e)
    have ih := unescapeCheck_no_percent rest hrest
    unfold unescapeCheck
    simp [hc, ih]

theorem unescape_plain (s : GoString) (h : ∀ c ∈ s, isPlainPathByte c = true) :
    unescape s Encoding.encodePath = Except.ok s := by
  have hp : ch '%' ∉ s := fun hm => (plainPathByte_facts _ (h _ hm)).2.1 rfl
  simp [unescape, unescapeCheck_no_percent s hp, List.count_eq_zero.mpr hp]

theorem escape_plain (s : GoString) (h : ∀ c ∈ s, isPlainPathByte c = true) :
    escape s Encoding.encodePath = s := by
  have hall : (s.all fun c => !shouldEscape c Encoding.encodePath) = true := by
    rw [List.all_eq_true]
    intro c hc
    simp [(plainPathByte_facts c (h c hc)).1]
  simp [escape, hall]

theorem setPath_plain (u : URL) (s : GoString) (h : ∀ c ∈ s, isPlainPathByte c = true) :
    u.setPath s = Except.ok { u with Path := s, RawPath := [] } := by
  simp [URL.setPath, unescape_plain s h, escape_plain s h]

theorem escapedPath_plain (u : URL) (h : ∀ c ∈ u.Path, isPlainPathByte c = true)
    (hraw : u.RawPath = []) (hstar : u.Path ≠ goStr "*") : u.EscapedPath = u.Path := by
  simp [URL.EscapedPath, hraw, hstar, escape_plain u.Path h]

theorem Parse_plain (pa : AuthorityParser) (x : Byte) (t : GoString) (hx : x ≠ ch '/')
    (h : ∀ c ∈ ch '/' :: x :: t, isPlainPathByte c = true) :
    Parse pa (ch '/' :: x :: t) = Except.ok { Path := ch '/' :: x :: t } := by
  have hhash : ch '#' ∉ ch '/' :: x :: t := fun hm => (plainPathByte_facts _ (h _ hm)).2.2.2.1 rfl
  have hquery : ch '?' ∉ ch '/' :: x :: t := fun hm => (plainPathByte_facts _ (h _ hm)).2.2.1 rfl
  have hctl : stringContainsCTLByte (ch '/' :: x :: t) = false := by
    unfold stringContainsCTLByte
    rw [List.any_eq_false]
    intro c hc
    simp [(plainPathByte_facts c (h c hc)).2.2.2.2]
  have hstar : ch '/' :: x :: t ≠ goStr "*" := by
    have hlit : goStr "*" = [ch '*'] := by decide
    rw [hlit]
    simp
  have hscheme : getscheme (ch '/' :: x :: t) = Except.ok ([], ch '/' :: x :: t) := by
    have h1 : isLetter (ch '/') = false := by decide
    have h2 : (isDigit (ch '/') || ch '/' == ch '+' || ch '/' == ch '-' || ch '/' == ch '.') =
        false := by decide
    have h3 : ch '/' ≠ ch ':' := by decide
    simp [getscheme, getschemeAux, h1, h2, h3]
  have hforced : (endsWith (ch '/' :: x :: t) (goStr "?") &&
      (ch '/' :: x :: t).count (ch '?') == 1) = false := by
    rw [List.count_eq_zero.mpr hquery]
    simp
  have hstart : startsWith (ch '/' :: x :: t) (goStr "/") = true := by
    have : goStr "/" = [ch '/'] := by decide
    simp [startsWith, this]
  have hdouble : startsWith (ch '/' :: x :: t) (goStr "//") = false := by
    have : goStr "//" = [ch '/', ch '/'] := by decide
    have hbeq : (ch '/' == x) = false := beq_eq_false_iff_ne.mpr (Ne.symm hx)
    rw [startsWith, this]
    simp only [List.isPrefixOf, hbeq, Bool.false_and, Bool.and_false]
  have hlower : toLower [] = [] := rfl
  simp only [Parse, split_not_mem _ _ _ hhash, parse, hctl, hstar, hscheme, hforced,
    split_not_mem _ _ _ hquery, hstart, parseAuthorityAndPath, hdouble, setPath_plain _ _ h,
    hlower]
  simp [hstart, hdouble, setPath_plain _ _ h]

theorem callbackPrefix_eq :
    callbackPrefix = ch '/' :: (goStr "api" ++ ch '/' :: (goStr "v3" ++ ch '/' ::
      (goStr "callback" ++ ch '/' :: (goStr "remote" ++ [ch '/'])))) := by
  decide

theorem callbackPath_eq (key : GoString) :
    callbackPrefix ++ key = ch '/' :: (goStr "api" ++ ch '/' :: (goStr "v3" ++ ch '/' ::
      (goStr "callback" ++ ch '/' :: (goStr "remote" ++ ch '/' :: key)))) := by
  rw [callbackPrefix_eq]
  simp only [List.cons_append, List.append_assoc, List.nil_append]

theorem callbackPath_split (key : GoString) (hkey : ch '/' ∉ key) :
    stringsSplit (callbackPrefix ++ key) (ch '/') =
      [[], goStr "api", goStr "v3", goStr "callback", goStr "remote", key] := by
  have h0 : ch '/' ∉ ([] : GoString) := by simp
  have h1 : ch '/' ∉ goStr "api" := by decide
  have h2 : ch '/' ∉ goStr "v3" := by decide
  have h3 : ch '/' ∉ goStr "callback" := by decide
  have h4 : ch '/' ∉ goStr "remote" := by decide
  have hcons : ∀ rest : GoString, ch '/' :: rest = [] ++ ch '/' :: rest := fun _ => rfl
  rw [callbackPath_eq, stringsSplit, hcons, splitAux_append _ _ _ _ h0,
    splitAux_append _ _ _ _ h1, splitAux_append _ _ _ _ h2, splitAux_append _ _ _ _ h3,
    splitAux_append _ _ _ _ h4, splitAux_not_mem _ _ _ hkey]
  simp

theorem callbackPath_resolve (base key : GoString) (hslash : ch '/' ∉ key)
    (hdot : key ≠ goStr ".") (hdots : key ≠ goStr "..") :
    resolvePath base (callbackPrefix ++ key) = callbackPrefix ++ key := by
  have hsplit := callbackPath_split key hslash
  have hd0 : ([] : GoString) ≠ goStr "." ∧ ([] : GoString) ≠ goStr ".." := by decide
  have hd1 : goStr "api" ≠ goStr "." ∧ goStr "api" ≠ goStr ".." := by decide
  have hd2 : goStr "v3" ≠ goStr "." ∧ goStr "v3" ≠ goStr ".." := by decide
  have hd3 : goStr "callback" ≠ goStr "." ∧ goStr "callback" ≠ goStr ".." := by decide
  have hd4 : goStr "remote" ≠ goStr "." ∧ goStr "remote" ≠ goStr ".." := by decide
  have helems : resolveElems [] [[], goStr "api", goStr "v3", goStr "callback", goStr "remote",
      key] = [[], goStr "api", goStr "v3", goStr "callback", goStr "remote", key] := by
    simp only [resolveElems, if_neg hd0.1, if_neg hd0.2, if_neg hd1.1, if_neg hd1.2,
      if_neg hd2.1, if_neg hd2.2, if_neg hd3.1, if_neg hd3.2, if_neg hd4.1, if_neg hd4.2,
      if_neg hdot, if_neg hdots, List.nil_append, List.cons_append]
  have hjoin : stringsJoin [[], goStr "api", goStr "v3", goStr "callback", goStr "remote", key]
      (ch '/') = callbackPrefix ++ key := by
    rw [callbackPath_eq]
    simp [stringsJoin, List.intercalate]
  have hfull : callbackPrefix ++ key = ch '/' :: (callbackPrefix ++ key).drop 1 := by
    rw [callbackPath_eq]
    rfl
  have hne : callbackPrefix ++ key ≠ [] := by
    rw [callbackPath_eq]
    simp
  have hlit : goStr "/" = [ch '/'] := by decide
  have hstart : startsWith (callbackPrefix ++ key) (goStr "/") = true := by
    rw [callbackPath_eq, hlit]
    simp [startsWith]
  have hfullref : (match callbackPrefix ++ key with
      | [] => base
      | c :: _ =>
        if c ≠ ch '/' then
          base.take (lastIndexByte base (ch '/') + 1).toNat ++ (callbackPrefix ++ key)
        else callbackPrefix ++ key) = callbackPrefix ++ key := by
    rw [callbackPath_eq]
    simp
  unfold resolvePath
  simp only [hfullref, hsplit, helems, hjoin, hstart, if_true, if_neg hne]
  have hlast : ¬ ([[], goStr "api", goStr "v3", goStr "callback", goStr "remote",
      key].getLast? = some (goStr ".") ∨ [[], goStr "api", goStr "v3", goStr "callback",
      goStr "remote", key].getLast? = some (goStr "..")) := by
    simp [hdot, hdots]
  simp only [if_neg hlast, hjoin, hstart, if_true]
  exact hfull.symm

set_option maxRecDepth 100000 in
theorem callbackPath_plain (key : GoString) (hkey : ∀ c ∈ key, isKeyByte c = true) :
    ∀ c ∈ callbackPrefix ++ key, isPlainPathByte c = true := by
  have hpre : ∀ c ∈ callbackPrefix, isPlainPathByte c = true := by decide
  intro c hc
  rcases List.mem_append.mp hc with h | h
  · exact hpre c h
  · exact (keyByte_facts c (hkey c h)).1

theorem callbackPath_parse (pa : AuthorityParser) (key : GoString)
    (hkey : ∀ c ∈ key, isKeyByte c = true) :
    Parse pa (callbackPrefix ++ key) = Except.ok { Path := callbackPrefix ++ key } := by
  have hshape : callbackPrefix ++ key = ch '/' :: ch 'a' ::
      (goStr "pi" ++ ch '/' :: (goStr "v3" ++ ch '/' ::
        (goStr "callback" ++ ch '/' :: (goStr "remote" ++ ch '/' :: key)))) := by
    rw [callbackPath_eq]
    rfl
  have hplain := callbackPath_plain key hkey
  rw [hshape] at hplain ⊢
  exact Parse_plain pa (ch 'a') _ (by decide) hplain

theorem indexByte_eq_neg_one (s : GoString) (c : Byte) (h : indexByte s c = -1) : c ∉ s := by
  intro hm
  simp only [indexByte, if_pos hm] at h
  omega

/-- The text of an address without query and fragment whose path is plain and
absolute: what stands before the path, then the path. -/
theorem String_plain_path (u : URL) (t : GoString)
    (hpath : u.Path = ch '/' :: t) (hplain : ∀ c ∈ u.Path, isPlainPathByte c = true)
    (hraw : u.RawPath = []) (hnoOpq : u.Opaque = []) (hforce : u.ForceQuery = false)
    (hquery : u.RawQuery = []) (hfrag : u.Fragment = []) :
    u.String = u.stringAuthority ++ u.Path := by
  have hstar : u.Path ≠ goStr "*" := by
    have hlit : goStr "*" = [ch '*'] := by decide
    have hne : ch '/' ≠ ch '*' := by decide
    rw [hpath, hlit]
    intro e
    exact hne (List.cons.inj e).1
  have hesc := escapedPath_plain u hplain hraw hstar
  have htail : u.stringTail = [] := by
    simp [URL.stringTail, hforce, hquery, hfrag]
  have hcolon : ¬ (u.stringAuthority = [] ∧ indexByte u.Path (ch ':') > -1 ∧
      indexByte (u.Path.take (indexByte u.Path (ch ':')).toNat) (ch '/') = -1) := by
    rintro ⟨-, hpos, hnone⟩
    have hmem : ch ':' ∈ u.Path := by
      by_contra hn
      simp [indexByte, hn] at hpos
    have hne : ch '/' ≠ ch ':' := by decide
    have hidx : indexByte u.Path (ch ':') = ((t.indexOf (ch ':') + 1 : Nat) : Int) := by
      simp only [indexByte, if_pos hmem]
      rw [hpath, List.indexOf_cons_ne _ hne]
    apply indexByte_eq_neg_one _ _ hnone
    rw [hidx, hpath]
    simp
  unfold URL.String
  simp only [hesc, htail, List.append_nil]
  rw [if_neg (by simp [hnoOpq])]
  have hhead : ¬ (u.Path ≠ [] ∧ u.Path.head? ≠ some (ch '/') ∧ u.Host ≠ []) := by
    rw [hpath]
    simp
  simp only [if_neg hhead, if_neg hcolon]

/-- The callback address that `Token` builds for a plain key: the site's
scheme, user and host, then `/api/v3/callback/remote/` and the key. -/
theorem tokenPolicy_plainKey (env : Env) (handler : Handler) (key : GoString)
    (hkey : plainKey key) :
    ∃ policy, tokenPolicy env handler key = Outcome.returned policy ∧
      policy.CallbackURL = callbackBase env.GetSiteURL ++ (callbackPrefix ++ key) := by
  obtain ⟨hbytes, hdot, hdots⟩ := hkey
  have hslash : ch '/' ∉ key := fun hm => (keyByte_facts _ (hbytes _ hm)).2 rfl
  have hplain := callbackPath_plain key hbytes
  have hshape : callbackPrefix ++ key = ch '/' :: (goStr "api" ++ ch '/' :: (goStr "v3" ++
      ch '/' :: (goStr "callback" ++ ch '/' :: (goStr "remote" ++ ch '/' :: key)))) :=
    callbackPath_eq key
  have hne : callbackPrefix ++ key ≠ [] := by
    rw [hshape]
    simp
  have hpre : callbackPrefix ≠ [] := by decide
  have hstar : callbackPrefix ++ key ≠ goStr "*" := by
    have hlit : goStr "*" = [ch '*'] := by decide
    have hc : ch '/' ≠ ch '*' := by decide
    rw [hshape, hlit]
    intro e
    exact hc (List.cons.inj e).1
  have hrefesc : URL.EscapedPath { Path := callbackPrefix ++ key } = callbackPrefix ++ key :=
    escapedPath_plain _ hplain rfl hstar
  have hresolve : env.GetSiteURL.resolveReference { Path := callbackPrefix ++ key } =
      { Scheme := env.GetSiteURL.Scheme, User := env.GetSiteURL.User,
        Host := env.GetSiteURL.Host, Path := callbackPrefix ++ key } := by
    simp [URL.resolveReference, hne, hrefesc, callbackPath_resolve _ key hslash hdot hdots,
      URL.setPathIgnoringError, setPath_plain _ _ hplain]
  refine ⟨uploadPolicy handler
    { Scheme := env.GetSiteURL.Scheme, User := env.GetSiteURL.User,
      Host := env.GetSiteURL.Host, Path := callbackPrefix ++ key }, ?_, ?_⟩
  · simp only [tokenPolicy, callbackReference, callbackPath_parse _ key hbytes, pointerOf,
      URL.ResolveReference, hresolve]
  · simp only [uploadPolicy]
    rw [String_plain_path _ _ hshape hplain rfl rfl rfl rfl rfl]
    simp [URL.stringAuthority, callbackBase, hne, hpre]

/-- C7, as stated, fails: the keys `k3y` and `./k3y` differ, yet `Token` puts
the same callback address into the upload policy for both, and the address
for `./k3y` does not end with `/api/v3/callback/remote/./k3y`. -/
theorem Token_callback_collision :
    goStr "k3y" ≠ goStr "./k3y" ∧
      tokenPolicy exampleEnv (exampleHandler []) (goStr "k3y") =
        Outcome.returned (uploadPolicy (exampleHandler [])
          { Scheme := goStr "https", Host := goStr "cloud.example",
            Path := goStr "/api/v3/callback/remote/k3y" }) ∧
      tokenPolicy exampleEnv (exampleHandler []) (goStr "./k3y") =
        Outcome.returned (uploadPolicy (exampleHandler [])
          { Scheme := goStr "https", Host := goStr "cloud.example",
            Path := goStr "/api/v3/callback/remote/k3y" }) ∧
      (uploadPolicy (exampleHandler [])
          { Scheme := goStr "https", Host := goStr "cloud.example",
            Path := goStr "/api/v3/callback/remote/k3y" }).CallbackURL =
        goStr "https://cloud.example/api/v3/callback/remote/k3y" ∧
      endsWith (goStr "https://cloud.example/api/v3/callback/remote/k3y")
        (goStr "/api/v3/callback/remote/" ++ goStr "./k3y") = false := by
  decide

/-- C7, amended: for keys made of letters, digits and `- _ . ~ $ & + , : ; = @`
other than `.` and `..`, two calls of `Token` with different keys put
different callback addresses into the upload policy, and the address for a
key ends with `/api/v3/callback/remote/` followed by that key. -/
theorem Token_callback_unique (env : Env) (handler : Handler) (key1 key2 : GoString)
    (h1 : plainKey key1) (h2 : plainKey key2) (hne : key1 ≠ key2) :
    ∃ policy1 policy2,
      tokenPolicy env handler key1 = Outcome.returned policy1 ∧
      tokenPolicy env handler key2 = Outcome.returned policy2 ∧
      policy1.CallbackURL ≠ policy2.CallbackURL ∧
      endsWith policy1.CallbackURL (goStr "/api/v3/callback/remote/" ++ key1) = true ∧
      endsWith policy2.CallbackURL (goStr "/api/v3/callback/remote/" ++ key2) = true := by
  obtain ⟨p1, hp1, hu1⟩ := tokenPolicy_plainKey env handler key1 h1
  obtain ⟨p2, hp2, hu2⟩ := tokenPolicy_plainKey env handler key2 h2
  refine ⟨p1, p2, hp1, hp2, ?_, ?_, ?_⟩
  · rw [hu1, hu2]
    intro e
    exact hne (List.append_cancel_left (List.append_cancel_left e))
  · rw [hu1]
    simp [endsWith, callbackPrefix]
  · rw [hu2]
    simp [endsWith, callbackPrefix]

set_option maxRecDepth 100000 in
theorem Token_callback_unique_witness :
    ∃ policy1 policy2,
      tokenPolicy exampleEnv (exampleHandler []) (goStr "k3y") = Outcome.returned policy1 ∧
      tokenPolicy exampleEnv (exampleHandler []) (goStr "k3y.2") = Outcome.returned policy2 ∧
      policy1.CallbackURL ≠ policy2.CallbackURL ∧
      endsWith policy1.CallbackURL (goStr "/api/v3/callback/remote/" ++ goStr "k3y") = true ∧
      endsWith policy2.CallbackURL (goStr "/api/v3/callback/remote/" ++ goStr "k3y.2") = true :=
  Token_callback_unique exampleEnv (exampleHandler []) (goStr "k3y") (goStr "k3y.2")
    ⟨by decide, by decide, by decide⟩ ⟨by decide, by decide, by decide⟩ (by decide)

end Remote
